import Mathlib

/-!
Verification of the preset-management and CSV header-mapping subsystem of the
appraisal tool.  The two source files are embedded shallowly:

* appraisal_tool_stage2_presets_help.py  (namespace Stage2)
* appraisal_tool_v0.4.1.py               (namespace V041)

Python dicts are insertion-ordered association lists, Tk entry widgets are
(field name, current text) pairs, the file system is an association list from
file name to the JSON document last written, and a write-success oracle
models whether a given save_json call raises.  Python str.strip and str.lower
are modelled structurally (pyStrip, pyLower) so that every definition
evaluates inside the kernel.
-/

namespace Appraisal

/-- JSON values, as produced by json.load and consumed by json.dump. -/
inductive Json where
  | obj (fields : List (String × Json))
  | arr (elems : List Json)
  | str (s : String)
  | num (n : Int)
  | jbool (b : Bool)
  | null

/-- Outcome of opening and json.load-ing a backing file: absent
(FileNotFoundError), unreadable (OSError, decode error), malformed
(json.JSONDecodeError), or successfully parsed to some JSON value.  The
source catches every one of these exceptions in the same way. -/
inductive FileRead where
  | absent
  | unreadable
  | malformed
  | parsed (j : Json)

/-- load_json(path, default) of v0.4.1 (lines 87-92), and the identical
try/except pattern inside load_presets of the stage2 file (lines 21-26):
return whatever json.load produced on success, the default on any
exception. -/
def load_json (r : FileRead) (dflt : Json) : Json :=
  match r with
  | .parsed j => j
  | _ => dflt

/-- Python str.strip() with no argument: drop whitespace from both ends
(modelled over the character list of the string). -/
def pyStrip (s : String) : String :=
  String.mk (((s.data.dropWhile Char.isWhitespace).reverse.dropWhile
    Char.isWhitespace).reverse)

/-- Python str.lower(), character by character. -/
def pyLower (s : String) : String :=
  String.mk (s.data.map Char.toLower)

/-- Substring test on character lists: needle occurs contiguously in hay. -/
def isSubChars (needle : List Char) : List Char → Bool
  | [] => needle.isEmpty
  | c :: rest => needle.isPrefixOf (c :: rest) || isSubChars needle rest

/-- Python membership test needle in hay for strings. -/
def pyIn (needle hay : String) : Bool :=
  isSubChars needle.data hay.data

/-- Python dict assignment d[k] = v on an insertion-ordered association
list: an existing key keeps its position and gets the new value, a new key
is appended at the end. -/
def assocSet (l : List (String × α)) (k : String) (v : α) : List (String × α) :=
  match l with
  | [] => [(k, v)]
  | p :: t => if p.1 = k then (k, v) :: t else p :: assocSet t k v

/-- Python d.get(k, dflt). -/
def assocGetD (l : List (String × α)) (k : String) (dflt : α) : α :=
  match l.lookup k with
  | some v => v
  | none => dflt

/-- Truthiness of the active-preset variable in a test such as
if not self.active_preset: both None and the empty string are falsy. -/
def pyFalsyOpt : Option String → Bool
  | none => true
  | some s => s == ""

/-- save_json(path, data) of v0.4.1 (lines 94-99), and save_presets of the
stage2 file (lines 28-33): when the write succeeds the document is stored
under the path; when it raises, the file system is unchanged and the warning
branch runs (second component true).  The write-success oracle ok says which
paths can be written. -/
def save_json (ok : String → Bool) (path : String) (data : Json)
    (files : List (String × Json)) : List (String × Json) × Bool :=
  if ok path then (assocSet files path data, false) else (files, true)

/-- The presets dict as it is passed to json.dump: an object whose values
are objects of string fields. -/
def presetSetToJson (s : List (String × String)) : Json :=
  Json.obj (s.map (fun p => (p.1, Json.str p.2)))

def presetsToJson (ps : List (String × List (String × String))) : Json :=
  Json.obj (ps.map (fun p => (p.1, presetSetToJson p.2)))

/-- The body of the apply-preset loop, common to both versions
(stage2 lines 51-54, v0.4.1 lines 256-259): every adjustment entry is
cleared with entry.delete(0, END), then refilled from the stored set when
its field is present there.  The resulting text of each entry is therefore
the stored value when the field is a key of data, and empty otherwise. -/
def fillEntries (data : List (String × String)) (entries : List (String × String)) :
    List (String × String) :=
  entries.map (fun p =>
    (p.1, match data.lookup p.1 with
          | some v => v
          | none => ""))

namespace Stage2

/-- CONFIG_FILE of the stage2 file. -/
def CONFIG_FILE : String := "presets.json"

/-- The module-level mutable state of the stage2 file that the preset
subsystem touches: the presets dict, the current_preset global, the
adjustment entry widgets, and the backing file system. -/
structure State where
  presets : List (String × List (String × String))
  current_preset : Option String
  entries : List (String × String)
  files : List (String × Json)

/-- load_presets() (stage2 lines 21-26): json.load of presets.json, falling
back to the dictionary with the five empty quality sets on any exception. -/
def load_presets (r : FileRead) : Json :=
  load_json r (Json.obj [("Q1", Json.obj []), ("Q2", Json.obj []),
    ("Q3", Json.obj []), ("Q4", Json.obj []), ("Q5", Json.obj [])])

/-- apply_preset(preset_name, entries) (stage2 lines 46-54): set
current_preset, look the stored set up with presets.get(name, default empty),
clear every entry and refill the ones whose field is stored. -/
def apply_preset (name : String) (st : State) : State :=
  { st with
    current_preset := some name,
    entries := fillEntries (assocGetD st.presets name []) st.entries }

/-- save_preset(preset_name, entries) (stage2 lines 56-67): when no preset
is selected, show the warning and do nothing (second component true).
Otherwise collect every entry whose stripped value is non-empty into a fresh
dict of stripped values, store it under the active name and persist the
presets dict. -/
def save_preset (ok : String → Bool) (st : State) : State × Bool :=
  if pyFalsyOpt st.current_preset then (st, true)
  else
    let name := st.current_preset.getD ""
    let data := st.entries.filterMap (fun p =>
      let val := pyStrip p.2
      if val = "" then none else some (p.1, val))
    let presets' := assocSet st.presets name data
    let fs := save_json ok CONFIG_FILE (presetsToJson presets') st.files
    ({ st with presets := presets', files := fs.1 }, false)

/-- clear_adjustments(entries) (stage2 lines 69-71): delete the text of
every adjustment entry.  Nothing else is touched; in particular the
current_preset global keeps its value. -/
def clear_adjustments (st : State) : State :=
  { st with entries := st.entries.map (fun p => (p.1, "")) }

end Stage2

namespace V041

def PRESETS_FILE : String := "presets.json"
def HEADERS_MAP_FILE : String := "headers_map.json"
def CUSTOM_FIELDS_FILE : String := "custom_fields.json"

/-- One persisted custom field row: a dict with name and header keys
(v0.4.1 save_all, line 447). -/
structure CustomField where
  name : String
  header : String
deriving DecidableEq

/-- The fields of the App object that the specified subsystem reads or
writes, plus the backing file system. -/
structure AppState where
  presets : List (String × List (String × String))
  headers_map : List (String × String)
  custom_fields : List CustomField
  active_preset : Option String
  adjustment_entries : List (String × String)
  cached_headers : List String
  headers_samples : List (String × List String)
  files : List (String × Json)

/-- App._apply_preset(name) (v0.4.1 lines 254-264): fetch the stored set
with self.presets.get(name, default empty), clear and refill every
adjustment entry, and record name as the active preset.  Button reliefs are
presentation only and not part of the state. -/
def applyPreset (name : String) (st : AppState) : AppState :=
  { st with
    adjustment_entries := fillEntries (assocGetD st.presets name []) st.adjustment_entries,
    active_preset := some name }

/-- App._save_preset() (v0.4.1 lines 266-275): when no preset is active,
show the info box and do nothing (second component true).  Otherwise build
data with data[field] = entry.get() for every adjustment entry, with no
stripping and no filtering, store it under the active name and persist the
presets dict with save_json. -/
def savePreset (ok : String → Bool) (st : AppState) : AppState × Bool :=
  if pyFalsyOpt st.active_preset then (st, true)
  else
    let name := st.active_preset.getD ""
    let data := st.adjustment_entries.map (fun p => (p.1, p.2))
    let presets' := assocSet st.presets name data
    let fs := save_json ok PRESETS_FILE (presetsToJson presets') st.files
    ({ st with presets := presets', files := fs.1 }, false)

/-- App._clear_adjustments() (v0.4.1 lines 277-282): delete the text of
every adjustment entry and, when a preset is active, reset its button and
set self.active_preset = None. -/
def clearAdjustments (st : AppState) : AppState :=
  let cleared := st.adjustment_entries.map (fun p => (p.1, ""))
  if pyFalsyOpt st.active_preset then
    { st with adjustment_entries := cleared }
  else
    { st with adjustment_entries := cleared, active_preset := none }

/-- The headers_map dict as passed to json.dump: flat object of strings. -/
def headersMapToJson (m : List (String × String)) : Json :=
  Json.obj (m.map (fun p => (p.1, Json.str p.2)))

/-- The custom_fields list as passed to json.dump. -/
def customFieldsToJson (l : List CustomField) : Json :=
  Json.arr (l.map (fun c =>
    Json.obj [("name", Json.str c.name), ("header", Json.str c.header)]))

/-- save_all() inside App._open_header_mapper (v0.4.1 lines 431-451).
mapperVals are the (field, combobox text) pairs of self._mapper_widgets,
customRows the (name text, header text) pairs of self._custom_widgets.
First the stripped header map is saved and installed as self.headers_map,
then the custom rows with non-blank stripped names are collected, saved and
installed as self.custom_fields.  The two save_json calls are independent;
each reports its own failure (the two booleans) without stopping the rest. -/
def saveAll (ok : String → Bool) (st : AppState)
    (mapperVals : List (String × String)) (customRows : List (String × String)) :
    AppState × Bool × Bool :=
  let final_map := mapperVals.map (fun p => (p.1, pyStrip p.2))
  let w1 := save_json ok HEADERS_MAP_FILE (headersMapToJson final_map) st.files
  let st1 := { st with headers_map := final_map, files := w1.1 }
  let new_custom_fields := customRows.filterMap (fun p =>
    let nm := pyStrip p.1
    if nm = "" then none else some (CustomField.mk nm (pyStrip p.2)))
  let w2 := save_json ok CUSTOM_FIELDS_FILE (customFieldsToJson new_custom_fields) st1.files
  ({ st1 with custom_fields := new_custom_fields, files := w2.1 }, w1.2, w2.2)

/-- App._typeahead_and_preview (v0.4.1 lines 457-467), restricted to the
suggestion-list update of the combobox.  The typed text is stripped first;
when the header cache is empty the combobox values are left unchanged; when
the stripped text is empty the full cached list is installed; otherwise the
case-insensitive substring matches are installed, falling back to the full
cached list when nothing matches. -/
def typeaheadValues (cached : List String) (typedRaw : String)
    (prevValues : List String) : List String :=
  let typed := pyStrip typedRaw
  if cached.isEmpty then prevValues
  else if typed = "" then cached
  else
    let filtered := cached.filter (fun h => pyIn (pyLower typed) (pyLower h))
    if filtered.isEmpty then cached else filtered

/-- Outcome of opening the CSV with utf-8-sig and asking csv.DictReader for
its fieldnames: either that already raises (missing file, header decode
error), or it yields the fieldnames, which are None for an empty file. -/
inductive HeaderRead where
  | fail
  | fields (fs : Option (List String))

/-- The lazy read behaviour of one CSV file: the header read, then the
sequence of row reads the iterator would produce in order.  A row read is
either a DictReader row, given as the (fieldname, cell) items of the row
dict where a missing cell is None, or a failure (decode error, csv.Error)
raised while that row is being read. -/
structure CsvScript where
  header : HeaderRead
  rows : List (Option (List (String × Option String)))

/-- The dict comprehension samples = one empty list per cached header
(v0.4.1 line 320); duplicate header names collapse onto one key as in a
Python dict. -/
def initSamples (hs : List String) : List (String × List String) :=
  hs.foldl (fun acc h =>
    if acc.any (fun p => p.1 == h) then acc else acc ++ [(h, [])]) []

/-- samples[h].append("" if val is None else str(val)) (v0.4.1 line 325):
the entry of the (unique) key h gets the cell value appended, a KeyError
(h not a key of samples) is modelled as none. -/
def sampleInsert (samples : List (String × List String)) (h : String)
    (v : Option String) : Option (List (String × List String)) :=
  match samples with
  | [] => none
  | p :: t =>
    if p.1 = h then some ((p.1, p.2 ++ [v.getD ""]) :: t)
    else
      match sampleInsert t h v with
      | none => none
      | some t' => some (p :: t')

/-- The inner loop for h, val in row.items() of v0.4.1 lines 324-325,
propagating a KeyError. -/
def addRow (samples : List (String × List String)) :
    List (String × Option String) → Option (List (String × List String))
  | [] => some samples
  | (h, v) :: rest =>
    match sampleInsert samples h v with
    | none => none
    | some s' => addRow s' rest

/-- The sampling loop for i, row in enumerate(reader) of v0.4.1 lines
321-325: each element of reads is first read (a failing read raises, none),
then the loop breaks once i reaches 3, otherwise the row is folded into the
samples. -/
def cacheLoop (i : Nat) (reads : List (Option (List (String × Option String))))
    (samples : List (String × List String)) :
    Option (List (String × List String)) :=
  match reads with
  | [] => some samples
  | rd :: rest =>
    match rd with
    | none => none
    | some row =>
      if 3 ≤ i then some samples
      else
        match addRow samples row with
        | none => none
        | some s' => cacheLoop (i + 1) rest s'

/-- App._cache_headers(path) (v0.4.1 lines 315-328).  On a failing header
read nothing is mutated and the error box is shown (second component true).
Otherwise self.cached_headers is assigned at once (line 319); a failure
while sampling then shows the error box with the samples still untouched,
and only a completed loop assigns self.headers_samples (line 326). -/
def cacheHeaders (script : CsvScript) (st : AppState) : AppState × Bool :=
  match script.header with
  | .fail => (st, true)
  | .fields fs =>
    let cached := fs.getD []
    let st1 := { st with cached_headers := cached }
    match cacheLoop 0 script.rows (initSamples cached) with
    | none => (st1, true)
    | some samples => ({ st1 with headers_samples := samples }, false)

/-- The row dict csv.DictReader builds for one data row against the header
hs: cells are matched positionally, a missing cell becomes restval None.
This models rows with at most as many cells as headers and pairwise distinct
fieldnames (extra cells would go under the restkey None and distinct dict
keys would collapse; the theorems about it carry those hypotheses). -/
def dictRow (hs : List String) (r : List String) : List (String × Option String) :=
  match hs with
  | [] => []
  | h :: t => (h, r.head?) :: dictRow t r.tail

/-- The UTF-8 byte-order mark as a decoded character. -/
def bomChar : Char := Char.ofNat 0xFEFF

/-- Opening with encoding utf-8-sig: a byte-order mark at the very start of
the file is dropped; decoded at the CSV level, that start is the first
character of the first cell of the header row. -/
def stripBomStr (s : String) : String :=
  match s.data with
  | c :: rest => if c = bomChar then String.mk rest else s
  | [] => s

def stripBom (file : List (List String)) : List (List String) :=
  match file with
  | (c :: cs) :: rest => (stripBomStr c :: cs) :: rest
  | other => other

/-- The read behaviour of a well-formed decodable CSV file, given as its
rows of cells: utf-8-sig strips a leading byte-order mark, the first row is
the header, and every data row is delivered as its DictReader row dict. -/
def csvScriptOf (file : List (List String)) : CsvScript :=
  match stripBom file with
  | [] => { header := .fields none, rows := [] }
  | hs :: rows => { header := .fields (some hs),
                    rows := rows.map (fun r => some (dictRow hs r)) }

/-- The same file with a byte-order mark prepended to its first cell. -/
def withBom (file : List (List String)) : List (List String) :=
  match file with
  | (c :: cs) :: rest => (String.mk (bomChar :: c.data) :: cs) :: rest
  | other => other

/-- Column view of a block of rows: for each header position, the cells of
the rows at that position in row order, a missing cell read as the empty
string.  This is the specification value of the samples cache. -/
def sampleCols (hs : List String) (rows : List (List String)) :
    List (String × List String) :=
  match hs with
  | [] => []
  | h :: t =>
    (h, rows.map (fun r => r.head?.getD "")) ::
      sampleCols t (rows.map (fun r => r.tail))

end V041

/-! Concrete instances used by counterexamples and witnesses. -/

/-- An App state with everything empty. -/
def emptyApp : V041.AppState :=
  ⟨[], [], [], none, [], [], [], []⟩

/-- A stage2 module state with everything empty. -/
def emptyStage2 : Stage2.State :=
  ⟨[], none, [], []⟩

/-- A write-success oracle under which every save succeeds. -/
def okAll : String → Bool := fun _ => true

/-- Helper for the expected presets-document shape: an object all of whose
values are strings. -/
def isStrObj : Json → Bool
  | Json.obj fs => fs.all (fun p => match p.2 with
      | Json.str _ => true
      | _ => false)
  | _ => false

/-- Modelled from the spec (section 6): the expected structure of the
presets document, an object with keys Q1..Q5 whose values are objects
mapping adjustment-field names to string values.  Used only to state the
claim about structural validation; the source performs no such check. -/
def specPresetsDocShape : Json → Bool
  | Json.obj fs =>
    (fs.map Prod.fst == ["Q1", "Q2", "Q3", "Q4", "Q5"]) &&
      fs.all (fun p => isStrObj p.2)
  | _ => false

/-- App state for the C1 counterexample: preset Q1 active and one
adjustment entry holding only whitespace. -/
def c1app : V041.AppState :=
  { emptyApp with
    active_preset := some "Q1",
    adjustment_entries := [("GLA $/sf", "  ")] }

/-- Stage2 state for the C1 witness. -/
def c1s2w : Stage2.State :=
  { emptyStage2 with
    current_preset := some "Q3",
    entries := [("GLA $/sf", " 50000 "), ("Basement $/sf", " ")] }

/-- Write oracle for the C2 counterexample: the header-map save raises,
the custom-fields save succeeds. -/
def c2ok : String → Bool := fun p => p != V041.HEADERS_MAP_FILE

/-- App state for the C2 counterexample: both documents previously
persisted with old content. -/
def c2app : V041.AppState :=
  { emptyApp with
    headers_map := [("GLA (sf)", "Old")],
    files := [(V041.HEADERS_MAP_FILE, Json.str "OLDMAP"),
              (V041.CUSTOM_FIELDS_FILE, Json.null)] }

/-- App state for the C4 counterexample: a previously cached header list
and samples mapping. -/
def c4app : V041.AppState :=
  { emptyApp with
    cached_headers := ["Old"],
    headers_samples := [("Old", ["1"])] }

/-- CSV read script for the C4 counterexample: the header row of the new
file reads fine, but reading the first data row raises (for example a
decode error in that row). -/
def c4script : V041.CsvScript :=
  { header := V041.HeaderRead.fields (some ["New"]), rows := [none] }

/-- App state for the C5 witness: Q1 and Q2 saved with disjoint fields. -/
def c5app : V041.AppState :=
  { emptyApp with
    presets := [("Q1", [("GLA $/sf", "10")]), ("Q2", [("Basement $/sf", "20")])],
    adjustment_entries := [("GLA $/sf", ""), ("Basement $/sf", "")] }

/-- Data rows for the C8 witness: five rows, the second one short. -/
def c8rows : List (List String) :=
  [["1", "2"], ["3"], ["5", "6"], ["7", "8"], ["9", "10"]]

/-- Stage2 state for the C9 counterexample: Q1 active with a saved set. -/
def c9s2 : Stage2.State :=
  { emptyStage2 with
    presets := [("Q1", [("GLA $/sf", "50")])],
    current_preset := some "Q1",
    entries := [("GLA $/sf", "50")] }

/-- App state for the C9 witness. -/
def c9app : V041.AppState :=
  { emptyApp with
    active_preset := some "Q2",
    adjustment_entries := [("GLA $/sf", "50")] }

/-- App state for the C10 witness: no preset named Q9 was ever saved. -/
def c10app : V041.AppState :=
  { emptyApp with
    presets := [("Q1", [("GLA $/sf", "10")])],
    adjustment_entries := [("GLA $/sf", "7"), ("Basement $/sf", "8")] }

end Appraisal

namespace Appraisal

/-! Helper lemmas on association lists. -/

theorem lookup_assocSet_self {α : Type} (l : List (String × α)) (k : String)
    (v : α) : (assocSet l k v).lookup k = some v := by
  induction l with
  | nil => simp [assocSet, List.lookup]
  | cons p t ih =>
    by_cases hp : p.1 = k
    · simp [assocSet, hp, List.lookup]
    · have hb : (k == p.1) = false := by simp [Ne.symm hp]
      simp [assocSet, hp, List.lookup, hb, ih]

theorem lookup_assocSet_ne {α : Type} (l : List (String × α)) (k k' : String)
    (v : α) (h : k' ≠ k) : (assocSet l k v).lookup k' = l.lookup k' := by
  induction l with
  | nil =>
    have hb : (k' == k) = false := by simp [h]
    simp [assocSet, List.lookup, hb]
  | cons p t ih =>
    by_cases hp : p.1 = k
    · have hb : (k' == k) = false := by simp [h]
      have hb' : (k' == p.1) = false := by simp [hp, h]
      simp [assocSet, hp, List.lookup, hb, hb']
    · cases hk : (k' == p.1) <;> simp [assocSet, hp, List.lookup, hk, ih]

theorem lookup_eq_none_of_not_mem_keys {α : Type} (l : List (String × α))
    (k : String) (h : k ∉ l.map Prod.fst) : l.lookup k = none := by
  induction l with
  | nil => rfl
  | cons p t ih =>
    simp only [List.map_cons, List.mem_cons] at h
    push_neg at h
    have hb : (k == p.1) = false := by simp [h.1]
    simp [List.lookup, hb, ih h.2]

theorem fillEntries_lookup (data l : List (String × String)) (f : String) :
    (fillEntries data l).lookup f =
      match l.lookup f with
      | none => none
      | some _ => some (match data.lookup f with
                        | some v => v
                        | none => "") := by
  induction l with
  | nil => rfl
  | cons p t ih =>
    by_cases hf : f = p.1
    · subst hf
      simp [fillEntries, List.lookup]
    · have hb : (f == p.1) = false := by simp [hf]
      simpa [fillEntries, List.lookup, hb] using ih

theorem filterMap_strip_eq (l : List (String × String)) :
    (l.filterMap (fun p =>
      if pyStrip p.2 = "" then none else some (p.1, pyStrip p.2))) =
    (l.filter (fun p => pyStrip p.2 != "")).map (fun p => (p.1, pyStrip p.2)) := by
  induction l with
  | nil => rfl
  | cons p t ih =>
    by_cases h : pyStrip p.2 = "" <;> simp [h, ih, List.filterMap_cons]

theorem filterMap_custom_eq (l : List (String × String)) :
    (l.filterMap (fun p =>
      if pyStrip p.1 = "" then none
      else some (V041.CustomField.mk (pyStrip p.1) (pyStrip p.2)))) =
    (l.filter (fun p => pyStrip p.1 != "")).map
      (fun p => V041.CustomField.mk (pyStrip p.1) (pyStrip p.2)) := by
  induction l with
  | nil => rfl
  | cons p t ih =>
    by_cases h : pyStrip p.1 = "" <;> simp [h, ih, List.filterMap_cons]

/-! Claim theorems. -/

/-- C3 (counterexample): the load operation does not validate the structure
of a parsed document.  A presets file whose content is the valid JSON text
"oops" parses, is not of the expected presets-document structure, and is
returned as-is instead of the documented default, refuting the claim that
the default is returned whenever the file fails to parse as the expected
structure. -/
theorem load_presets_wrong_shape_not_defaulted :
    Stage2.load_presets (FileRead.parsed (Json.str "oops")) = Json.str "oops"
    ∧ specPresetsDocShape (Json.str "oops") = false
    ∧ Json.str "oops" ≠
        Json.obj [("Q1", Json.obj []), ("Q2", Json.obj []), ("Q3", Json.obj []),
                  ("Q4", Json.obj []), ("Q5", Json.obj [])] :=
  ⟨rfl, rfl, fun h => Json.noConfusion h⟩

/-- C3 (amended): load_json returns the caller-supplied default exactly when
the backing file is absent, unreadable, or fails to parse as JSON at all;
a successfully parsed JSON value is returned as-is with no structural
validation.  With the presets file absent, load_presets returns the mapping
with keys Q1..Q5 each bound to an empty object. -/
theorem load_json_defaults (d j : Json) :
    load_json FileRead.absent d = d
    ∧ load_json FileRead.unreadable d = d
    ∧ load_json FileRead.malformed d = d
    ∧ load_json (FileRead.parsed j) d = j
    ∧ Stage2.load_presets FileRead.absent =
        Json.obj [("Q1", Json.obj []), ("Q2", Json.obj []), ("Q3", Json.obj []),
                  ("Q4", Json.obj []), ("Q5", Json.obj [])] :=
  ⟨rfl, rfl, rfl, rfl, rfl⟩

/-- C7: a custom-field row survives the commit exactly when its name is
non-empty after trimming; kept rows carry the trimmed name and trimmed
header, in order.  In particular a row named with the empty string and
header Sale Price is dropped, while a row named Pool with an empty header
is kept with an empty binding. -/
theorem saveAll_keeps_nonblank_custom_rows (ok : String → Bool)
    (st : V041.AppState) (mv rows : List (String × String)) :
    (V041.saveAll ok st mv rows).1.custom_fields =
      (rows.filter (fun p => pyStrip p.1 != "")).map
        (fun p => V041.CustomField.mk (pyStrip p.1) (pyStrip p.2))
    ∧ (V041.saveAll ok st mv [("", "Sale Price"), ("Pool", "")]).1.custom_fields =
        [V041.CustomField.mk "Pool" ""] := by
  constructor
  · show (rows.filterMap _) = _
    exact filterMap_custom_eq rows
  · rfl

/-- C10: applying a preset only sets the active preset and replaces the
displayed adjustment values; the presets mapping, the header mapping, the
custom-field list, the header caches and every persisted document are
untouched, and an unsaved name simply clears every entry (empty stored
set), in both versions. -/
theorem applyPreset_frame (n : String) (st : V041.AppState) (s2 : Stage2.State) :
    (V041.applyPreset n st).presets = st.presets
    ∧ (V041.applyPreset n st).headers_map = st.headers_map
    ∧ (V041.applyPreset n st).custom_fields = st.custom_fields
    ∧ (V041.applyPreset n st).cached_headers = st.cached_headers
    ∧ (V041.applyPreset n st).headers_samples = st.headers_samples
    ∧ (V041.applyPreset n st).files = st.files
    ∧ (V041.applyPreset n st).active_preset = some n
    ∧ (V041.applyPreset n st).adjustment_entries =
        fillEntries (assocGetD st.presets n []) st.adjustment_entries
    ∧ (st.presets.lookup n = none →
        ∀ p ∈ (V041.applyPreset n st).adjustment_entries, p.2 = "")
    ∧ (Stage2.apply_preset n s2).presets = s2.presets
    ∧ (Stage2.apply_preset n s2).files = s2.files
    ∧ (Stage2.apply_preset n s2).current_preset = some n
    ∧ (s2.presets.lookup n = none →
        ∀ p ∈ (Stage2.apply_preset n s2).entries, p.2 = "") := by
  refine ⟨rfl, rfl, rfl, rfl, rfl, rfl, rfl, rfl, ?_, rfl, rfl, rfl, ?_⟩
  · intro h p hp
    simp only [V041.applyPreset, assocGetD, h] at hp
    simp only [fillEntries, List.mem_map] at hp
    obtain ⟨q, _, rfl⟩ := hp
    rfl
  · intro h p hp
    simp only [Stage2.apply_preset, assocGetD, h] at hp
    simp only [fillEntries, List.mem_map] at hp
    obtain ⟨q, _, rfl⟩ := hp
    rfl

/-- C10 (witness): applying the never-saved preset Q9 leaves the presets
mapping intact and blanks every adjustment entry. -/
theorem applyPreset_frame_witness :
    (V041.applyPreset "Q9" c10app).presets = [("Q1", [("GLA $/sf", "10")])]
    ∧ ("Basement $/sf", "8") ∈ c10app.adjustment_entries := by
  refine ⟨(applyPreset_frame "Q9" c10app emptyStage2).1, by decide⟩

/-- C5: applying preset n and then preset m leaves no adjustment field
populated that is absent from the stored set of m: after the second apply,
a field outside the keys of the stored set of m reads as the empty string
(or is not an adjustment entry at all), in both versions — apply is fully
replacing, never additive. -/
theorem apply_is_replacing (st : V041.AppState) (s2 : Stage2.State)
    (n m fld : String) (_hnm : n ≠ m)
    (h1 : fld ∉ (assocGetD st.presets m []).map Prod.fst)
    (h2 : fld ∉ (assocGetD s2.presets m []).map Prod.fst) :
    ((V041.applyPreset m (V041.applyPreset n st)).adjustment_entries.lookup fld = none
      ∨ (V041.applyPreset m (V041.applyPreset n st)).adjustment_entries.lookup fld = some "")
    ∧ ((Stage2.apply_preset m (Stage2.apply_preset n s2)).entries.lookup fld = none
      ∨ (Stage2.apply_preset m (Stage2.apply_preset n s2)).entries.lookup fld = some "") := by
  have hd1 : (assocGetD st.presets m []).lookup fld = none :=
    lookup_eq_none_of_not_mem_keys _ _ h1
  have hd2 : (assocGetD s2.presets m []).lookup fld = none :=
    lookup_eq_none_of_not_mem_keys _ _ h2
  constructor
  · show ((fillEntries (assocGetD st.presets m [])
        (V041.applyPreset n st).adjustment_entries).lookup fld = none
      ∨ (fillEntries (assocGetD st.presets m [])
        (V041.applyPreset n st).adjustment_entries).lookup fld = some "")
    rw [fillEntries_lookup, hd1]
    cases e : List.lookup fld (V041.applyPreset n st).adjustment_entries <;> simp [e]
  · show ((fillEntries (assocGetD s2.presets m [])
        (Stage2.apply_preset n s2).entries).lookup fld = none
      ∨ (fillEntries (assocGetD s2.presets m [])
        (Stage2.apply_preset n s2).entries).lookup fld = some "")
    rw [fillEntries_lookup, hd2]
    cases e : List.lookup fld (Stage2.apply_preset n s2).entries <;> simp [e]

/-- C5 (witness): with Q1 holding only the GLA rate and Q2 holding only the
basement rate, applying Q1 and then Q2 leaves the GLA field blank. -/
theorem apply_is_replacing_witness :
    (V041.applyPreset "Q2" (V041.applyPreset "Q1" c5app)).adjustment_entries.lookup
        "GLA $/sf" = none
    ∨ (V041.applyPreset "Q2" (V041.applyPreset "Q1" c5app)).adjustment_entries.lookup
        "GLA $/sf" = some "" :=
  (apply_is_replacing c5app emptyStage2 "Q1" "Q2" "GLA $/sf"
    (by decide) (by decide) (by decide)).1

/-- C1 (counterexample): in v0.4.1, saving preset Q1 while the only
adjustment entry holds whitespace stores that field with its raw
whitespace value, although its value is empty after trimming — the stored
set is not restricted to the non-empty trimmed fields. -/
theorem savePreset_stores_blank_field :
    ((V041.savePreset okAll c1app).1.presets.lookup "Q1") = some [("GLA $/sf", "  ")]
    ∧ pyStrip "  " = "" := by
  exact ⟨by decide, by decide⟩

/-- C1 (amended): while a preset is active, the stage2 save stores exactly
the adjustment fields whose value is non-empty after trimming, with the
trimmed values; the v0.4.1 save instead stores every adjustment field with
its raw value, empty or not.  Both persist the updated presets mapping via
the persistence store when the write succeeds, and neither signals the
no-preset condition. -/
theorem save_preset_behavior (ok : String → Bool) (s2 : Stage2.State)
    (st : V041.AppState)
    (h2 : pyFalsyOpt s2.current_preset = false)
    (h1 : pyFalsyOpt st.active_preset = false) :
    ((Stage2.save_preset ok s2).1.presets.lookup (s2.current_preset.getD "")) =
      some ((s2.entries.filter (fun p => pyStrip p.2 != "")).map
        (fun p => (p.1, pyStrip p.2)))
    ∧ ((V041.savePreset ok st).1.presets.lookup (st.active_preset.getD "")) =
        some st.adjustment_entries
    ∧ (ok Stage2.CONFIG_FILE = true →
        (Stage2.save_preset ok s2).1.files.lookup Stage2.CONFIG_FILE =
          some (presetsToJson (Stage2.save_preset ok s2).1.presets))
    ∧ (ok V041.PRESETS_FILE = true →
        (V041.savePreset ok st).1.files.lookup V041.PRESETS_FILE =
          some (presetsToJson (V041.savePreset ok st).1.presets))
    ∧ (Stage2.save_preset ok s2).2 = false
    ∧ (V041.savePreset ok st).2 = false := by
  refine ⟨?_, ?_, ?_, ?_, ?_, ?_⟩
  · simp only [Stage2.save_preset, h2, Bool.false_eq_true, if_false]
    rw [filterMap_strip_eq]
    exact lookup_assocSet_self _ _ _
  · simp only [V041.savePreset, h1, Bool.false_eq_true, if_false]
    have : st.adjustment_entries.map (fun p => (p.1, p.2)) = st.adjustment_entries := by
      simp
    rw [this]
    exact lookup_assocSet_self _ _ _
  · intro hok
    simp only [Stage2.save_preset, h2, Bool.false_eq_true, if_false, save_json, hok,
      if_true]
    exact lookup_assocSet_self _ _ _
  · intro hok
    simp only [V041.savePreset, h1, Bool.false_eq_true, if_false, save_json, hok,
      if_true]
    exact lookup_assocSet_self _ _ _
  · simp [Stage2.save_preset, h2]
  · simp [V041.savePreset, h1]

/-- C1 (witness): saving Q3 in the stage2 version with one padded value and
one whitespace-only value stores exactly the trimmed non-empty field. -/
theorem save_preset_behavior_witness :
    ((Stage2.save_preset okAll c1s2w).1.presets.lookup "Q3") =
      some [("GLA $/sf", "50000")] := by
  have h := save_preset_behavior okAll c1s2w c1app (by decide) (by decide)
  exact h.1

/-- C2 (counterexample): committing the header-mapping editor while the
header-map write fails and the custom-fields write succeeds leaves the
persisted documents half-committed (the header-map file keeps its old
content while the custom-fields file gets the new content) and still
replaces the in-memory header mapping with the new value — prior state is
not retained, refuting atomicity.  The failure is reported (first warning
flag). -/
theorem saveAll_not_atomic :
    (V041.saveAll c2ok c2app [("GLA (sf)", "NewCol")] []).1.files.lookup
        V041.HEADERS_MAP_FILE = some (Json.str "OLDMAP")
    ∧ (V041.saveAll c2ok c2app [("GLA (sf)", "NewCol")] []).1.files.lookup
        V041.CUSTOM_FIELDS_FILE = some (Json.arr [])
    ∧ Json.arr [] ≠ Json.null
    ∧ (V041.saveAll c2ok c2app [("GLA (sf)", "NewCol")] []).1.headers_map =
        [("GLA (sf)", "NewCol")]
    ∧ c2app.headers_map = [("GLA (sf)", "Old")]
    ∧ (V041.saveAll c2ok c2app [("GLA (sf)", "NewCol")] []).2.1 = true := by
  refine ⟨rfl, rfl, fun h => Json.noConfusion h, by decide, by decide, rfl⟩

/-- C2 (amended): the commit saves the two documents independently: the
in-memory header mapping and custom-field list are unconditionally replaced
by the newly collected values, each save failure is reported by its own
warning while leaving only that document's file unchanged, and a
successful save of the other document still goes through — so a single
failure leaves the persisted pair half-committed rather than rolled
back. -/
theorem saveAll_independent_saves (ok : String → Bool) (st : V041.AppState)
    (mv rows : List (String × String)) :
    (V041.saveAll ok st mv rows).1.headers_map =
      mv.map (fun p => (p.1, pyStrip p.2))
    ∧ (V041.saveAll ok st mv rows).1.custom_fields =
        (rows.filter (fun p => pyStrip p.1 != "")).map
          (fun p => V041.CustomField.mk (pyStrip p.1) (pyStrip p.2))
    ∧ (ok V041.HEADERS_MAP_FILE = false →
        (V041.saveAll ok st mv rows).2.1 = true
        ∧ (V041.saveAll ok st mv rows).1.files.lookup V041.HEADERS_MAP_FILE =
            st.files.lookup V041.HEADERS_MAP_FILE)
    ∧ (ok V041.HEADERS_MAP_FILE = true →
        (V041.saveAll ok st mv rows).2.1 = false
        ∧ (V041.saveAll ok st mv rows).1.files.lookup V041.HEADERS_MAP_FILE =
            some (V041.headersMapToJson (mv.map (fun p => (p.1, pyStrip p.2)))))
    ∧ (ok V041.CUSTOM_FIELDS_FILE = false →
        (V041.saveAll ok st mv rows).2.2 = true
        ∧ (V041.saveAll ok st mv rows).1.files.lookup V041.CUSTOM_FIELDS_FILE =
            st.files.lookup V041.CUSTOM_FIELDS_FILE)
    ∧ (ok V041.CUSTOM_FIELDS_FILE = true →
        (V041.saveAll ok st mv rows).2.2 = false
        ∧ (V041.saveAll ok st mv rows).1.files.lookup V041.CUSTOM_FIELDS_FILE =
            some (V041.customFieldsToJson ((rows.filter (fun p => pyStrip p.1 != "")).map
              (fun p => V041.CustomField.mk (pyStrip p.1) (pyStrip p.2))))) := by
  have hne : V041.CUSTOM_FIELDS_FILE ≠ V041.HEADERS_MAP_FILE := by decide
  have hne' : V041.HEADERS_MAP_FILE ≠ V041.CUSTOM_FIELDS_FILE := by decide
  refine ⟨rfl, ?_, ?_, ?_, ?_, ?_⟩
  · show (rows.filterMap _) = _
    exact filterMap_custom_eq rows
  · intro hok
    refine ⟨by simp [V041.saveAll, save_json, hok], ?_⟩
    by_cases hcf : ok V041.CUSTOM_FIELDS_FILE = true
    · simp only [V041.saveAll, save_json, hok, hcf, Bool.false_eq_true, if_false,
        if_true]
      exact lookup_assocSet_ne _ _ _ _ hne'
    · have hcf' : ok V041.CUSTOM_FIELDS_FILE = false := by
        cases h : ok V041.CUSTOM_FIELDS_FILE
        · rfl
        · exact absurd h hcf
      simp [V041.saveAll, save_json, hok, hcf']
  · intro hok
    refine ⟨by simp [V041.saveAll, save_json, hok], ?_⟩
    by_cases hcf : ok V041.CUSTOM_FIELDS_FILE = true
    · simp only [V041.saveAll, save_json, hok, hcf, if_true]
      rw [lookup_assocSet_ne _ _ _ _ hne']
      exact lookup_assocSet_self _ _ _
    · have hcf' : ok V041.CUSTOM_FIELDS_FILE = false := by
        cases h : ok V041.CUSTOM_FIELDS_FILE
        · rfl
        · exact absurd h hcf
      simp only [V041.saveAll, save_json, hok, hcf', Bool.false_eq_true, if_false,
        if_true]
      exact lookup_assocSet_self _ _ _
  · intro hok
    refine ⟨by simp [V041.saveAll, save_json, hok], ?_⟩
    by_cases hhm : ok V041.HEADERS_MAP_FILE = true
    · simp [V041.saveAll, save_json, hok, hhm, lookup_assocSet_ne _ _ _ _ hne]
    · have hhm' : ok V041.HEADERS_MAP_FILE = false := by
        cases h : ok V041.HEADERS_MAP_FILE
        · rfl
        · exact absurd h hhm
      simp [V041.saveAll, save_json, hok, hhm']
  · intro hok
    refine ⟨by simp [V041.saveAll, save_json, hok], ?_⟩
    by_cases hhm : ok V041.HEADERS_MAP_FILE = true
    · simp only [V041.saveAll, save_json, hok, hhm, if_true]
      rw [filterMap_custom_eq]
      exact lookup_assocSet_self _ _ _
    · have hhm' : ok V041.HEADERS_MAP_FILE = false := by
        cases h : ok V041.HEADERS_MAP_FILE
        · rfl
        · exact absurd h hhm
      simp only [V041.saveAll, save_json, hok, hhm', Bool.false_eq_true, if_false,
        if_true]
      rw [filterMap_custom_eq]
      exact lookup_assocSet_self _ _ _

/-- C2 (witness): with every write succeeding, the committed header map is
installed in memory and persisted. -/
theorem saveAll_independent_saves_witness :
    (V041.saveAll okAll c2app [("GLA (sf)", " NewCol ")] []).1.headers_map =
      [("GLA (sf)", "NewCol")] := by
  have h := saveAll_independent_saves okAll c2app [("GLA (sf)", " NewCol ")] []
  exact h.1

/-- C9 (counterexample): in the stage2 version, clearing the adjustments
does not clear the active preset: with Q1 active, after clear_adjustments
the active preset is still Q1, and a subsequent save does not signal the
no-preset condition but overwrites the stored Q1 set (here with the empty
set, since every entry is now blank). -/
theorem stage2_clear_keeps_active :
    (Stage2.clear_adjustments c9s2).current_preset = some "Q1"
    ∧ (Stage2.save_preset okAll (Stage2.clear_adjustments c9s2)).2 = false
    ∧ (Stage2.save_preset okAll (Stage2.clear_adjustments c9s2)).1.presets =
        [("Q1", [])]
    ∧ c9s2.presets = [("Q1", [("GLA $/sf", "50")])] := by
  exact ⟨by decide, by decide, by decide, by decide⟩

/-- C9 (amended): in v0.4.1 the clear-adjustments operation transitions to
NoActivePreset in every reachable state (the active preset is never the
empty string), and a subsequent preset save signals the no-preset-selected
condition and performs no state change and no write; in the stage2 version
clear_adjustments leaves the active preset, the presets mapping and the
file system unchanged, so a subsequent save overwrites the still-active
preset. -/
theorem clear_adjustments_behavior (st : V041.AppState) (s2 : Stage2.State)
    (ok : String → Bool) (h : st.active_preset ≠ some "") :
    (V041.clearAdjustments st).active_preset = none
    ∧ V041.savePreset ok (V041.clearAdjustments st) = (V041.clearAdjustments st, true)
    ∧ (Stage2.clear_adjustments s2).current_preset = s2.current_preset
    ∧ (Stage2.clear_adjustments s2).presets = s2.presets
    ∧ (Stage2.clear_adjustments s2).files = s2.files := by
  have hnone : (V041.clearAdjustments st).active_preset = none := by
    cases hap : st.active_preset with
    | none => simp [V041.clearAdjustments, pyFalsyOpt, hap]
    | some s =>
      have hs : s ≠ "" := by
        intro hcontra
        exact h (by rw [hap, hcontra])
      have hb : (s == "") = false := by simp [hs]
      simp [V041.clearAdjustments, pyFalsyOpt, hap, hb]
  refine ⟨hnone, ?_, rfl, rfl, rfl⟩
  simp [V041.savePreset, pyFalsyOpt, hnone]

/-- C9 (witness): clearing the adjustments while Q2 is active in v0.4.1
deactivates the preset. -/
theorem clear_adjustments_behavior_witness :
    (V041.clearAdjustments c9app).active_preset = none := by
  have h := clear_adjustments_behavior c9app emptyStage2 okAll (by decide)
  exact h.1

/-- C6 (counterexample): the typed text is stripped before matching.  With
cached headers ab and c d, the typed text consisting of a single space is
not empty and matches exactly the header c d, yet the suggestion update
returns the full header list rather than that match — refuting the claim
that for every typed text the result is the case-insensitive substring
selection (with fallback only for empty text or no match). -/
theorem typeahead_strips_before_matching :
    V041.typeaheadValues ["ab", "c d"] " " ["zz"] = ["ab", "c d"]
    ∧ (" " : String) ≠ ""
    ∧ ["ab", "c d"].filter (fun h => pyIn (pyLower " ") (pyLower h)) = ["c d"]
    ∧ (["c d"] : List String) ≠ []
    ∧ V041.typeaheadValues ["ab", "c d"] " " ["zz"] ≠ ["c d"] := by
  exact ⟨by decide, by decide, by decide, by decide, by decide⟩

/-- C6 (amended): over a non-empty header cache, the suggestion update
filters by case-insensitive substring match of the stripped typed text: a
typed text that is empty after stripping yields the full cached list, a
stripped text with no match falls back to the full cached list, and
otherwise exactly the matching headers are returned; the result is always
an ordered sublist of the cached headers and never empty. -/
theorem typeahead_behavior (cached : List String) (typedRaw : String)
    (prev : List String) (hne : cached ≠ []) :
    (pyStrip typedRaw = "" → V041.typeaheadValues cached typedRaw prev = cached)
    ∧ (pyStrip typedRaw ≠ "" →
        cached.filter (fun h => pyIn (pyLower (pyStrip typedRaw)) (pyLower h)) = [] →
        V041.typeaheadValues cached typedRaw prev = cached)
    ∧ (pyStrip typedRaw ≠ "" →
        cached.filter (fun h => pyIn (pyLower (pyStrip typedRaw)) (pyLower h)) ≠ [] →
        V041.typeaheadValues cached typedRaw prev =
          cached.filter (fun h => pyIn (pyLower (pyStrip typedRaw)) (pyLower h)))
    ∧ List.Sublist (V041.typeaheadValues cached typedRaw prev) cached
    ∧ V041.typeaheadValues cached typedRaw prev ≠ [] := by
  have hemp : cached.isEmpty = false := by
    cases cached with
    | nil => exact absurd rfl hne
    | cons a l => rfl
  by_cases hs : pyStrip typedRaw = ""
  · refine ⟨fun _ => ?_, fun hcontra => absurd hs hcontra, fun hcontra => absurd hs hcontra,
      ?_, ?_⟩
    · simp [V041.typeaheadValues, hemp, hs]
    · simp only [V041.typeaheadValues, hemp, hs, Bool.false_eq_true, if_false, if_true]
      exact List.Sublist.refl cached
    · simp only [V041.typeaheadValues, hemp, hs, Bool.false_eq_true, if_false, if_true]
      exact hne
  · by_cases hf : cached.filter (fun h => pyIn (pyLower (pyStrip typedRaw)) (pyLower h)) = []
    · have he : (cached.filter
          (fun h => pyIn (pyLower (pyStrip typedRaw)) (pyLower h))).isEmpty = true := by
        rw [hf]; rfl
      refine ⟨fun hcontra => absurd hcontra hs, fun _ _ => ?_, fun _ hcontra => absurd hf hcontra,
        ?_, ?_⟩
      · simp [V041.typeaheadValues, hemp, hs, he]
      · simp only [V041.typeaheadValues, hemp, hs, he, Bool.false_eq_true, if_false, if_true]
        exact List.Sublist.refl cached
      · simp only [V041.typeaheadValues, hemp, hs, he, Bool.false_eq_true, if_false, if_true]
        exact hne
    · have he : (cached.filter
          (fun h => pyIn (pyLower (pyStrip typedRaw)) (pyLower h))).isEmpty = false := by
        cases hcf : cached.filter (fun h => pyIn (pyLower (pyStrip typedRaw)) (pyLower h)) with
        | nil => exact absurd hcf hf
        | cons a l => rfl
      refine ⟨fun hcontra => absurd hcontra hs, fun _ hcontra => absurd hcontra hf,
        fun _ _ => ?_, ?_, ?_⟩
      · simp [V041.typeaheadValues, hemp, hs, he]
      · simp only [V041.typeaheadValues, hemp, hs, he, Bool.false_eq_true, if_false, if_true]
        exact List.filter_sublist cached
      · simp only [V041.typeaheadValues, hemp, hs, he, Bool.false_eq_true, if_false, if_true]
        exact hf

/-- C6 (witness): typing sale over the cache Sale Price, Beds suggests
exactly Sale Price. -/
theorem typeahead_behavior_witness :
    V041.typeaheadValues ["Sale Price", "Beds"] "sale" [] = ["Sale Price"] := by
  have h := typeahead_behavior ["Sale Price", "Beds"] "sale" [] (by decide)
  exact h.2.2.1 (by decide) (by decide)

/-- C4 (counterexample): a file whose header row reads fine but whose first
data row fails to read (for example a decode error inside that row) shows
the error, yet leaves the cached header list already replaced with the new
file's headers while the previous samples mapping is kept — the two caches
are not both preserved on a read failure. -/
theorem cacheHeaders_partial_update :
    (V041.cacheHeaders c4script c4app).2 = true
    ∧ (V041.cacheHeaders c4script c4app).1.cached_headers = ["New"]
    ∧ c4app.cached_headers = ["Old"]
    ∧ (V041.cacheHeaders c4script c4app).1.headers_samples = [("Old", ["1"])]
    ∧ (["New"] : List String) ≠ ["Old"] := by
  exact ⟨by decide, by decide, by decide, by decide, by decide⟩

/-- C4 (amended): on any read failure the error is reported and the
previously cached samples mapping is preserved; when the failure happens at
open or while reading the header row, the cached header list is preserved
too (nothing is mutated at all), but when the failure happens while reading
the sample rows the cached header list has already been replaced with the
new file's header sequence. -/
theorem cacheHeaders_failure_behavior (script : V041.CsvScript)
    (st : V041.AppState) :
    ((V041.cacheHeaders script st).2 = true →
      (V041.cacheHeaders script st).1.headers_samples = st.headers_samples)
    ∧ (script.header = V041.HeaderRead.fail →
        V041.cacheHeaders script st = (st, true))
    ∧ (∀ fs, script.header = V041.HeaderRead.fields fs →
        (V041.cacheHeaders script st).1.cached_headers = fs.getD []) := by
  obtain ⟨hdr, rows⟩ := script
  cases hdr with
  | fail =>
    exact ⟨fun _ => rfl, fun _ => rfl, fun fs hcontra => by cases hcontra⟩
  | fields fs =>
    refine ⟨?_, ?_, ?_⟩
    · intro herr
      cases e : V041.cacheLoop 0 rows (V041.initSamples (fs.getD [])) with
      | none => simp [V041.cacheHeaders, e]
      | some s => simp [V041.cacheHeaders, e] at herr
    · intro hcontra
      cases hcontra
    · intro fs' heq
      injection heq with h
      subst h
      cases e : V041.cacheLoop 0 rows (V041.initSamples (fs.getD [])) <;>
        simp [V041.cacheHeaders, e]

/-- C4 (witness): on the concrete failing script, the samples mapping is
untouched. -/
theorem cacheHeaders_failure_behavior_witness :
    (V041.cacheHeaders c4script c4app).1.headers_samples = [("Old", ["1"])] := by
  have h := cacheHeaders_failure_behavior c4script c4app
  exact h.1 (by decide)

/-! Lemmas for the CSV sampling loop. -/

theorem dictRow_keys_mem (hs : List String) (r : List String) :
    ∀ q ∈ V041.dictRow hs r, q.1 ∈ hs := by
  induction hs generalizing r with
  | nil => intro q hq; cases hq
  | cons h t ih =>
    intro q hq
    rw [V041.dictRow] at hq
    rcases List.mem_cons.mp hq with rfl | hq'
    · exact List.mem_cons_self _ _
    · exact List.mem_cons_of_mem _ (ih r.tail q hq')

theorem sampleCols_nil (hs : List String) :
    V041.sampleCols hs [] = hs.map (fun h => (h, [])) := by
  induction hs with
  | nil => rfl
  | cons h t ih => simp [V041.sampleCols, ih]

theorem sampleCols_length (hs : List String) (rs : List (List String)) :
    ∀ p ∈ V041.sampleCols hs rs, p.2.length = rs.length := by
  induction hs generalizing rs with
  | nil => intro p hp; cases hp
  | cons h t ih =>
    intro p hp
    rw [V041.sampleCols] at hp
    rcases List.mem_cons.mp hp with rfl | hp'
    · simp
    · have := ih (rs.map (fun r => r.tail)) p hp'
      simpa using this

theorem initSamples_go (hs : List String) :
    hs.Nodup → ∀ acc : List (String × List String),
      (∀ h ∈ hs, acc.any (fun p => p.1 == h) = false) →
      hs.foldl (fun acc h =>
        if acc.any (fun p => p.1 == h) then acc else acc ++ [(h, [])]) acc
        = acc ++ hs.map (fun h => (h, [])) := by
  induction hs with
  | nil => intro _ acc _; simp
  | cons h t ih =>
    intro hnd acc hacc
    obtain ⟨hnotin, hnd'⟩ := List.nodup_cons.mp hnd
    have h0 : acc.any (fun p => p.1 == h) = false := hacc h (List.mem_cons_self h t)
    simp only [List.foldl_cons, h0, Bool.false_eq_true, if_false]
    rw [ih hnd' (acc ++ [(h, [])]) ?_]
    · simp
    · intro h' hh'
      have ha : acc.any (fun p => p.1 == h') = false :=
        hacc h' (List.mem_cons_of_mem _ hh')
      have hhne : (h == h') = false := by
        have : h ≠ h' := fun e => hnotin (e ▸ hh')
        simp [this]
      simp [List.any_append, ha, hhne]

theorem initSamples_eq (hs : List String) (hnd : hs.Nodup) :
    V041.initSamples hs = hs.map (fun h => (h, [])) := by
  have := initSamples_go hs hnd [] (fun h _ => rfl)
  simpa [V041.initSamples] using this

theorem sampleInsert_cons_ne (x : String × List String)
    (S : List (String × List String)) (k : String) (v : Option String)
    (h : x.1 ≠ k) :
    V041.sampleInsert (x :: S) k v =
      (V041.sampleInsert S k v).map (fun s => x :: s) := by
  cases e : V041.sampleInsert S k v <;> simp [V041.sampleInsert, h, e]

theorem addRow_cons_notin (x : String × List String)
    (S : List (String × List String)) (items : List (String × Option String))
    (h : ∀ q ∈ items, q.1 ≠ x.1) :
    V041.addRow (x :: S) items = (V041.addRow S items).map (fun s => x :: s) := by
  induction items generalizing S with
  | nil => rfl
  | cons q rest ih =>
    obtain ⟨qk, qv⟩ := q
    have hx : x.1 ≠ qk := Ne.symm (h (qk, qv) (List.mem_cons_self _ _))
    simp only [V041.addRow]
    rw [sampleInsert_cons_ne x S qk qv hx]
    cases e : V041.sampleInsert S qk qv with
    | none => simp [e]
    | some s' =>
      simp only [e, Option.map_some']
      exact ih s' (fun q hq' => h q (List.mem_cons_of_mem _ hq'))

theorem addRow_sampleCols (hs : List String) (hnd : hs.Nodup)
    (rows : List (List String)) (r : List String) :
    V041.addRow (V041.sampleCols hs rows) (V041.dictRow hs r)
      = some (V041.sampleCols hs (rows ++ [r])) := by
  induction hs generalizing rows r with
  | nil => rfl
  | cons h t ih =>
    obtain ⟨hnotin, hnd'⟩ := List.nodup_cons.mp hnd
    have hkeys : ∀ q ∈ V041.dictRow t r.tail, q.1 ≠ h := by
      intro q hq e
      exact hnotin (e ▸ dictRow_keys_mem t r.tail q hq)
    have e1 : V041.sampleInsert
        ((h, rows.map (fun r => r.head?.getD "")) ::
          V041.sampleCols t (rows.map (fun r => r.tail))) h r.head? =
        some ((h, rows.map (fun r => r.head?.getD "") ++ [r.head?.getD ""]) ::
          V041.sampleCols t (rows.map (fun r => r.tail))) := by
      simp [V041.sampleInsert]
    simp only [V041.sampleCols, V041.dictRow, V041.addRow, e1]
    rw [addRow_cons_notin _ _ _ hkeys, ih hnd' (rows.map (fun r => r.tail)) r.tail]
    simp [List.map_append]

theorem cacheLoop_sampleCols (hs : List String) (hnd : hs.Nodup)
    (rows : List (List String)) :
    ∀ done : List (List String),
      V041.cacheLoop done.length (rows.map (fun r => some (V041.dictRow hs r)))
        (V041.sampleCols hs done)
        = some (V041.sampleCols hs (done ++ rows.take (3 - done.length))) := by
  induction rows with
  | nil => intro done; simp [V041.cacheLoop]
  | cons r rest ih =>
    intro done
    by_cases h3 : 3 ≤ done.length
    · have h0 : 3 - done.length = 0 := by omega
      simp [V041.cacheLoop, h3, h0]
    · simp only [List.map_cons, V041.cacheLoop]
      rw [if_neg h3]
      simp only [addRow_sampleCols hs hnd done r]
      have hrec := ih (done ++ [r])
      simp only [List.length_append, List.length_cons, List.length_nil] at hrec
      rw [hrec]
      have harith : 3 - done.length = (3 - (done.length + 1)) + 1 := by omega
      rw [harith, List.take_succ_cons]
      simp

/-- C8: over a well-formed readable CSV (pairwise distinct header names, no
row wider than the header, the header cell not itself starting with a
byte-order mark), the header cache reads a leading byte-order mark
transparently, stores the header sequence, and collects per column exactly
the cells of the first three data rows in row order with a missing cell
recorded as the empty string — so each sample sequence has min 3 r length
entries for r data rows. -/
theorem read_headers_bom_and_samples (st : V041.AppState) (c : String)
    (cs : List String) (rows : List (List String))
    (hsb : V041.stripBomStr c = c)
    (hnd : (c :: cs).Nodup)
    (_hlen : ∀ r ∈ rows, r.length ≤ (c :: cs).length) :
    V041.cacheHeaders (V041.csvScriptOf (V041.withBom ((c :: cs) :: rows))) st
      = V041.cacheHeaders (V041.csvScriptOf ((c :: cs) :: rows)) st
    ∧ (V041.cacheHeaders (V041.csvScriptOf ((c :: cs) :: rows)) st).1.cached_headers
        = c :: cs
    ∧ (V041.cacheHeaders (V041.csvScriptOf ((c :: cs) :: rows)) st).1.headers_samples
        = V041.sampleCols (c :: cs) (rows.take 3)
    ∧ (V041.cacheHeaders (V041.csvScriptOf ((c :: cs) :: rows)) st).2 = false
    ∧ ∀ p ∈ V041.sampleCols (c :: cs) (rows.take 3),
        p.2.length = min 3 rows.length := by
  have hstrip : V041.stripBom ((c :: cs) :: rows) = (c :: cs) :: rows := by
    simp [V041.stripBom, hsb]
  have hbom : V041.stripBom (V041.withBom ((c :: cs) :: rows)) = (c :: cs) :: rows := by
    show V041.stripBom ((String.mk (V041.bomChar :: c.data) :: cs) :: rows) = _
    simp [V041.stripBom, V041.stripBomStr]
  have hscript : V041.csvScriptOf ((c :: cs) :: rows) =
      { header := V041.HeaderRead.fields (some (c :: cs)),
        rows := rows.map (fun r => some (V041.dictRow (c :: cs) r)) } := by
    rw [V041.csvScriptOf, hstrip]
  have hscript2 : V041.csvScriptOf (V041.withBom ((c :: cs) :: rows)) =
      V041.csvScriptOf ((c :: cs) :: rows) := by
    rw [V041.csvScriptOf, hbom, hscript]
  have hinit : V041.initSamples (c :: cs) = V041.sampleCols (c :: cs) [] := by
    rw [initSamples_eq _ hnd, sampleCols_nil]
  have hloop := cacheLoop_sampleCols (c :: cs) hnd rows []
  simp only [List.length_nil, List.nil_append, Nat.sub_zero] at hloop
  have hrun : V041.cacheHeaders (V041.csvScriptOf ((c :: cs) :: rows)) st =
      ({ st with cached_headers := c :: cs,
                 headers_samples := V041.sampleCols (c :: cs) (rows.take 3) }, false) := by
    rw [hscript]
    simp only [V041.cacheHeaders, Option.getD_some, hinit, hloop]
  refine ⟨by rw [hscript2], by rw [hrun], by rw [hrun], by rw [hrun], ?_⟩
  intro p hp
  have := sampleCols_length (c :: cs) (rows.take 3) p hp
  simpa [List.length_take] using this

/-- C8 (witness): for the concrete header A, B with five data rows (the
second one missing its B cell), the cached samples are exactly the first
three rows per column, the missing cell read as the empty string. -/
theorem read_headers_bom_and_samples_witness :
    (V041.cacheHeaders (V041.csvScriptOf (["A", "B"] :: c8rows)) emptyApp).1.headers_samples
      = [("A", ["1", "3", "5"]), ("B", ["2", "", "6"])] := by
  have h := read_headers_bom_and_samples emptyApp "A" ["B"] c8rows
    (by decide) (by decide) (by decide)
  exact h.2.2.1

end Appraisal
